import Mathlib

/-!
Verification development for the dual-backend lock / cache / counter
coordinator (`src/core/redis_manager.py`, `src/services/redis_lock.py`).

The fallback backend (remote store unavailable) keeps its state in two
in-process Python dicts, `_local_locks` and `_local_cache`, guarded by a
single `asyncio.Lock` (`_local_lock`) for the lock map.  We embed each dict
as an association list with at most one binding per key (a Python dict),
and each method as a pure function on that state.

The remote backend delegates to an external atomic key-value store; its
primitives (conditional set NX+EX, the compare-and-delete Lua script that
`release_lock` ships to the server, INCR/DECR, GET/SET/DELETE/EXISTS) are
embedded by their documented contracts over the same association-list
state.  Time is measured in deciseconds, so the fixed 100 ms polling
interval of `acquire_lock` is one unit.
-/

/-- Association-list lookup: the value bound to `k`, if any
(Python `d.get(k)` / Redis `GET`). -/
def alookup {α : Type} : List (String × α) → String → Option α
  | [], _ => none
  | (k', v) :: t, k => if k' = k then some v else alookup t k

/-- Association-list update, replacing any existing binding of `k`
(Python `d[k] = v` / Redis `SET`). -/
def aset {α : Type} : List (String × α) → String → α → List (String × α)
  | [], k, v => [(k, v)]
  | (k', v') :: t, k, v => if k' = k then (k, v) :: t else (k', v') :: aset t k v

/-- Association-list removal of every binding of `k`
(Python `del d[k]` / Redis `DEL`). -/
def aerase {α : Type} : List (String × α) → String → List (String × α)
  | [], _ => []
  | (k', v') :: t, k => if k' = k then aerase t k else (k', v') :: aerase t k

theorem alookup_aset_self {α : Type} (l : List (String × α)) (k : String) (v : α) :
    alookup (aset l k v) k = some v := by
  induction l with
  | nil => simp [aset, alookup]
  | cons h t ih =>
    obtain ⟨k', v'⟩ := h
    by_cases hk : k' = k <;> simp [aset, alookup, hk, ih]

theorem alookup_aset_ne {α : Type} (l : List (String × α)) (k k' : String) (v : α)
    (h : k ≠ k') : alookup (aset l k v) k' = alookup l k' := by
  induction l with
  | nil => simp [aset, alookup, h]
  | cons hd t ih =>
    obtain ⟨k₀, v₀⟩ := hd
    by_cases hk : k₀ = k
    · subst hk
      simp [aset, alookup, h]
    · simp [aset, hk, alookup]
      by_cases hk' : k₀ = k' <;> simp [hk', ih]

theorem alookup_aerase_self {α : Type} (l : List (String × α)) (k : String) :
    alookup (aerase l k) k = none := by
  induction l with
  | nil => simp [aerase, alookup]
  | cons hd t ih =>
    obtain ⟨k₀, v₀⟩ := hd
    by_cases hk : k₀ = k <;> simp [aerase, alookup, hk, ih]

theorem alookup_aerase_ne {α : Type} (l : List (String × α)) (k k' : String)
    (h : k ≠ k') : alookup (aerase l k) k' = alookup l k' := by
  induction l with
  | nil => simp [aerase, alookup]
  | cons hd t ih =>
    obtain ⟨k₀, v₀⟩ := hd
    by_cases hk : k₀ = k
    · subst hk
      simp [aerase, alookup, ih, h]
    · simp [aerase, hk, alookup]
      by_cases hk' : k₀ = k' <;> simp [hk', ih]

/-! ## State of the two backends -/

/-- Fallback lock map `_local_locks` (`redis_manager.py:13`): Python dict
from full lock key (already `"lock:"`-prefixed) to the owner token. -/
abbrev Locks := List (String × String)

/-- Remote keyspace holding lock records and string cache entries. -/
abbrev RStore := List (String × String)

/-- A value stored in the fallback cache dict `_local_cache`
(`redis_manager.py:14`): cache methods store strings, concurrency-counter
methods store Python ints in the same dict. -/
inductive Val : Type
  | str (s : String)
  | int (n : Int)
deriving DecidableEq, Repr

/-- Fallback cache map `_local_cache`. -/
abbrev Cache := List (String × Val)

/-- Remote keyspace restricted to the integer counter view used by the
INCR/DECR primitives of the backing-store contract. -/
abbrev CStore := List (String × Int)

/-- The full key of a lock: `lock_key = f"lock:{key}"`
(`redis_manager.py:75`). -/
def lockKeyOf (key : String) : String := "lock:" ++ key

/-- Python `a or b` on an optional numeric argument: `None` and `0` are
falsy, so `timeout = timeout or default` and
`wait_timeout = wait_timeout or timeout` (`redis_manager.py:77-78`)
replace both absence and zero by the default. -/
def pyOrNat (a : Option Nat) (b : Nat) : Nat :=
  match a with
  | none => b
  | some 0 => b
  | some n => n

/-! ## Fallback lock operations

Every mutation of `_local_locks` in the source is performed inside
`async with self._local_lock` (acquire `redis_manager.py:100`, auto-release
`:119`, release `:153`, cf-release `:251`).  The blocking wait loop of the
fallback `acquire_lock` (`:105-109`) therefore runs while the calling task
itself holds that guard, so no other task can insert or delete a lock
record for the whole duration of the wait: the map the loop re-reads each
iteration is the map it started with. -/

/-- The fallback wait loop (`redis_manager.py:106-109`), one unit of time
per 100 ms sleep.  Returns `(true, sleeps)` when the loop exits because the
key left the map (never happens: the map is pinned by the guard) and
`(false, sleeps)` when it hits `wait_timeout` and the caller returns
`None`.  `k` counts the sleeps performed so far. -/
def localWaitLoop (locks : Locks) (lockKey : String) (waitTimeout : Nat) :
    Nat → Bool × Nat
  | k =>
    if (alookup locks lockKey).isNone then (true, k)
    else if waitTimeout ≤ k + 1 then (false, k + 1)
    else localWaitLoop locks lockKey waitTimeout (k + 1)
  termination_by k => waitTimeout - k

/-- Result of a fallback `acquire_lock` call: the returned value, the lock
map afterwards, the number of 100 ms sleeps performed, and how many
auto-release tasks were scheduled by `asyncio.create_task` on line 113. -/
structure LocalAcqResult : Type where
  res : Option String
  locks : Locks
  sleeps : Nat
  scheduled : Nat
deriving DecidableEq, Repr

/-- Fallback branch of `acquire_lock` (`redis_manager.py:99-114`).
`lockValue` is the fresh UUID generated on line 76, `waitTimeout` the
resolved `wait_timeout` in deciseconds. -/
def acquire_lock_local (locks : Locks) (key lockValue : String)
    (blocking : Bool) (waitTimeout : Nat) : LocalAcqResult :=
  let lockKey := lockKeyOf key
  if (alookup locks lockKey).isSome then
    if !blocking then ⟨none, locks, 0, 0⟩
    else
      match localWaitLoop locks lockKey waitTimeout 0 with
      | (false, s) => ⟨none, locks, s, 0⟩
      | (true, s) => ⟨some lockValue, aset locks lockKey lockValue, s, 1⟩
  else ⟨some lockValue, aset locks lockKey lockValue, 0, 1⟩

/-- Body of the scheduled `_auto_release_local_lock` task after its
`ttl`-long sleep (`redis_manager.py:116-121`): delete the record if
present, no token check, no-op otherwise.  `key` is the full lock key. -/
def auto_release_local_lock (locks : Locks) (key : String) : Locks :=
  if (alookup locks key).isSome then aerase locks key else locks

/-- Fallback branch of `release_lock` (`redis_manager.py:151-157`):
delete and report true iff the stored token equals `lockValue`
(`dict.get` yields `None ≠ lockValue` when the record is absent). -/
def release_lock_local (locks : Locks) (key lockValue : String) :
    Bool × Locks :=
  let lockKey := lockKeyOf key
  if alookup locks lockKey = some lockValue then (true, aerase locks lockKey)
  else (false, locks)

/-- Fallback branch of `release_cf_lock` (`redis_manager.py:250-253`):
unconditionally delete `"lock:cf:refresh"` if present — no token is taken
and none is checked. -/
def release_cf_lock_local (locks : Locks) : Locks :=
  if (alookup locks "lock:cf:refresh").isSome then
    aerase locks "lock:cf:refresh"
  else locks

/-! ## Remote lock operations -/

/-- Backing-store conditional set `SET key value NX EX ttl` used on
`redis_manager.py:84-86`: store only if the key is absent, report whether
it was stored. -/
def redis_set_nx (s : RStore) (k v : String) : Bool × RStore :=
  if (alookup s k).isSome then (false, s) else (true, aset s k v)

/-- One conditional-set attempt of the remote `acquire_lock` branch
(`redis_manager.py:84-91`) with `blocking=False`: try the NX set once and
return `None` on failure. -/
def acquire_lock_redis_nb (s : RStore) (key lockValue : String) :
    Option String × RStore :=
  match redis_set_nx s (lockKeyOf key) lockValue with
  | (true, s') => (some lockValue, s')
  | (false, s') => (none, s')

/-- The remote polling loop of `acquire_lock` (`redis_manager.py:82-97`).
The remote store evolves independently of this process (other clients,
server-side TTL expiry), so the store contents at each poll are an
environment `env : Nat → RStore`; poll `n` happens at elapsed time `n`
deciseconds (one 100 ms sleep per iteration).  Returns the call's result
and the poll index at which it returned. -/
def acquire_lock_redis_loop (env : Nat → RStore) (lockKey lockValue : String)
    (blocking : Bool) (waitTimeout : Nat) : Nat → Option String × Nat
  | n =>
    if (alookup (env n) lockKey).isNone then (some lockValue, n)
    else if !blocking then (none, n)
    else if waitTimeout ≤ n then (none, n)
    else acquire_lock_redis_loop env lockKey lockValue blocking waitTimeout (n + 1)
  termination_by n => waitTimeout + 1 - n

/-- The Lua script shipped by `release_lock` (`redis_manager.py:138-144`):
atomically delete the key iff its current value is the caller's token,
returning 1 on deletion and 0 otherwise (`GET` on an absent key yields nil,
which differs from every token string). -/
def lua_release (s : RStore) (lockKey lockValue : String) : Int × RStore :=
  if alookup s lockKey = some lockValue then (1, aerase s lockKey) else (0, s)

/-- Remote branch of `release_lock` (`redis_manager.py:136-147`):
run the compare-and-delete script and report `result == 1`. -/
def release_lock_redis (s : RStore) (key lockValue : String) : Bool × RStore :=
  let r := lua_release s (lockKeyOf key) lockValue
  (r.1 == 1, r.2)

/-- Remote branch of `release_cf_lock` (`redis_manager.py:248-249`):
a plain unconditional `DELETE lock:cf:refresh`, no token check. -/
def release_cf_lock_redis (s : RStore) : RStore :=
  aerase s "lock:cf:refresh"

/-! ## Cache operations -/

/-- Fallback `get` (`redis_manager.py:174-175`): `self._local_cache.get(key)`. -/
def get_local (cache : Cache) (key : String) : Option Val :=
  alookup cache key

/-- Fallback `set` (`redis_manager.py:181-185`): store the string, return
`True`; when an expiry is given, additionally schedule one
`_auto_expire_local_cache` task (second component counts them). -/
def set_local (cache : Cache) (key value : String) (ex : Option Nat) :
    Bool × Cache × Nat :=
  (true, aset cache key (Val.str value), if ex.isSome then 1 else 0)

/-- Body of the scheduled `_auto_expire_local_cache` task after its sleep
(`redis_manager.py:187-191`): delete the key if still present. -/
def auto_expire_local_cache (cache : Cache) (key : String) : Cache :=
  if (alookup cache key).isSome then aerase cache key else cache

/-- Fallback `delete` (`redis_manager.py:197-201`): remove the key and
return `True` if it was present, else `False`. -/
def delete_local (cache : Cache) (key : String) : Bool × Cache :=
  if (alookup cache key).isSome then (true, aerase cache key)
  else (false, cache)

/-- Fallback `exists` (`redis_manager.py:207-208`): membership in
`_local_cache`. -/
def exists_local (cache : Cache) (key : String) : Bool :=
  (alookup cache key).isSome

/-- Remote `get` (`redis_manager.py:172-173`): backing-store `GET`. -/
def redis_get (s : RStore) (key : String) : Option String :=
  alookup s key

/-- Remote `set` (`redis_manager.py:179-180`): backing-store `SET` with
optional expiry; returns whether it was stored (always true). -/
def redis_set (s : RStore) (key value : String) : Bool × RStore :=
  (true, aset s key value)

/-- Server-side TTL expiry of a remote key. -/
def redis_expire (s : RStore) (key : String) : RStore :=
  aerase s key

/-- Remote `delete` (`redis_manager.py:195-196`): backing-store `DEL`,
reported as `count > 0`. -/
def redis_delete (s : RStore) (key : String) : Bool × RStore :=
  ((alookup s key).isSome, aerase s key)

/-- Remote `exists` (`redis_manager.py:205-206`): backing-store `EXISTS`,
reported as `count > 0`. -/
def redis_exists (s : RStore) (key : String) : Bool :=
  (alookup s key).isSome

/-! ## Concurrency counters -/

/-- The counter key `f"concurrency:{token_id}:{lock_type}"`
(`redis_manager.py:270`). -/
def concKey (tokenId : Int) (lockType : String) : String :=
  "concurrency:" ++ toString tokenId ++ ":" ++ lockType

/-- Fallback `get_concurrency` (`redis_manager.py:274-275`):
`self._local_cache.get(key, 0)` returns whatever the dict holds, an int
`0` when absent. -/
def get_concurrency_local (cache : Cache) (tokenId : Int) (lockType : String) :
    Val :=
  (alookup cache (concKey tokenId lockType)).getD (Val.int 0)

/-- Fallback `increment_concurrency` (`redis_manager.py:282-285`):
`current + 1` is stored and returned.  A non-int value at the key would
raise `TypeError` in Python, embedded as `none`. -/
def increment_concurrency_local (cache : Cache) (tokenId : Int)
    (lockType : String) : Option (Int × Cache) :=
  let key := concKey tokenId lockType
  match (alookup cache key).getD (Val.int 0) with
  | Val.int current => some (current + 1, aset cache key (Val.int (current + 1)))
  | Val.str _ => none

/-- Fallback `decrement_concurrency` (`redis_manager.py:296-300`):
`max(0, current - 1)` is stored and returned; `none` for the Python
`TypeError` on a non-int value. -/
def decrement_concurrency_local (cache : Cache) (tokenId : Int)
    (lockType : String) : Option (Int × Cache) :=
  let key := concKey tokenId lockType
  match (alookup cache key).getD (Val.int 0) with
  | Val.int current =>
      some (max 0 (current - 1), aset cache key (Val.int (max 0 (current - 1))))
  | Val.str _ => none

/-- Backing-store `INCR` (contract of §6: atomic integer adjustment, an
absent key counts as 0): returns the new value. -/
def redis_incr (s : CStore) (key : String) : Int × CStore :=
  let n := (alookup s key).getD 0 + 1
  (n, aset s key n)

/-- Backing-store `DECR`: returns the new value (an absent key counts as
0, so `DECR` drives it to -1). -/
def redis_decr (s : CStore) (key : String) : Int × CStore :=
  let n := (alookup s key).getD 0 - 1
  (n, aset s key n)

/-- Remote `get_concurrency` (`redis_manager.py:271-273`):
`int(value) if value else 0`. -/
def get_concurrency_redis (s : CStore) (tokenId : Int) (lockType : String) :
    Int :=
  (alookup s (concKey tokenId lockType)).getD 0

/-- Remote `increment_concurrency` (`redis_manager.py:280-281`): plain
`INCR`. -/
def increment_concurrency_redis (s : CStore) (tokenId : Int)
    (lockType : String) : Int × CStore :=
  redis_incr s (concKey tokenId lockType)

/-- Remote `decrement_concurrency` (`redis_manager.py:290-295`): `DECR`,
then if the result is negative the stored value is corrected to 0 and 0 is
returned. -/
def decrement_concurrency_redis (s : CStore) (tokenId : Int)
    (lockType : String) : Int × CStore :=
  let key := concKey tokenId lockType
  let r := redis_decr s key
  if r.1 < 0 then (0, aset r.2 key 0) else r

/-- One step of a get / increment / decrement sequence on a counter. -/
inductive CounterOp : Type
  | get
  | inc
  | dec
deriving DecidableEq, Repr

/-- Run a sequence of counter operations on the fallback cache
(fail-stop on the Python `TypeError` case). -/
def runCounterOpsLocal (tokenId : Int) (lockType : String) :
    List CounterOp → Cache → Option Cache
  | [], c => some c
  | CounterOp.get :: ops, c => runCounterOpsLocal tokenId lockType ops c
  | CounterOp.inc :: ops, c =>
      match increment_concurrency_local c tokenId lockType with
      | some r => runCounterOpsLocal tokenId lockType ops r.2
      | none => none
  | CounterOp.dec :: ops, c =>
      match decrement_concurrency_local c tokenId lockType with
      | some r => runCounterOpsLocal tokenId lockType ops r.2
      | none => none

/-- Run a sequence of counter operations on the remote counter store. -/
def runCounterOpsRedis (tokenId : Int) (lockType : String) :
    List CounterOp → CStore → CStore
  | [], s => s
  | CounterOp.get :: ops, s => runCounterOpsRedis tokenId lockType ops s
  | CounterOp.inc :: ops, s =>
      runCounterOpsRedis tokenId lockType ops
        (increment_concurrency_redis s tokenId lockType).2
  | CounterOp.dec :: ops, s =>
      runCounterOpsRedis tokenId lockType ops
        (decrement_concurrency_redis s tokenId lockType).2

/-- The counter invariant on the fallback cache: the counter key is absent
or holds a non-negative int. -/
def counterOkLocal (c : Cache) (key : String) : Bool :=
  match alookup c key with
  | none => true
  | some (Val.int n) => decide (0 ≤ n)
  | some (Val.str _) => false

/-- The counter invariant on the remote counter store: absent or
non-negative. -/
def counterOkRedis (s : CStore) (key : String) : Bool :=
  match alookup s key with
  | none => true
  | some n => decide (0 ≤ n)

/-! ## Manager lifecycle -/

/-- Outcome of `initialize` (`redis_manager.py:17-44`): the returned
boolean, the client handle afterwards (`some` = remote backend active,
`none` = fallback), and the `_initialized` flag. -/
structure InitOutcome : Type where
  ret : Bool
  client : Option String
  flagged : Bool
deriving DecidableEq, Repr

/-- `initialize` (`redis_manager.py:17-44`).  `redisEnabled` is the
configuration flag checked on line 19; `conn` is the outcome of building
the client and pinging it (lines 25-36), an external network effect:
`Except.ok h` yields a connected client handle `h`, `Except.error e` is
any raised exception.  The `try/except` catches every exception, so the
function is total: no error propagates to the caller. -/
def initialize_manager (redisEnabled : Bool) (conn : Except String String) :
    InitOutcome :=
  if !redisEnabled then ⟨false, none, true⟩
  else
    match conn with
    | Except.ok h => ⟨true, some h, true⟩
    | Except.error _ => ⟨false, none, true⟩

/-- `is_connected` (`redis_manager.py:53-56`): `self._client is not None`. -/
def is_connected (o : InitOutcome) : Bool :=
  o.client.isSome

/-! ## Behavior of the wait loops -/

/-- While the key is held, the fallback wait loop can only exit through its
timeout branch: starting from `k` sleeps it returns `(false, max (k+1) W)`,
i.e. it sleeps until the elapsed time first reaches `waitTimeout` (at least
one sleep happens even for `waitTimeout = 0`). -/
theorem localWaitLoop_held (locks : Locks) (lk : String) (W : Nat)
    (h : (alookup locks lk).isSome = true) :
    ∀ k, localWaitLoop locks lk W k = (false, max (k + 1) W) := by
  obtain ⟨v, hv⟩ := Option.isSome_iff_exists.mp h
  have main : ∀ d k, W - k ≤ d →
      localWaitLoop locks lk W k = (false, max (k + 1) W) := by
    intro d
    induction d with
    | zero =>
      intro k hk
      rw [localWaitLoop]
      have h2 : W ≤ k + 1 := by omega
      simp [hv, h2]
    | succ d ih =>
      intro k hk
      rw [localWaitLoop]
      by_cases h2 : W ≤ k + 1
      · simp [hv, h2]
      · simp [hv, h2, ih (k + 1) (by omega)]
        omega
  intro k
  exact main (W - k) k le_rfl

/-- A fallback blocking acquire that finds the key held returns `None`
after `max 1 W` sleeps, leaving the map untouched and scheduling no task. -/
theorem acquire_lock_local_held (locks : Locks) (k lv : String) (W : Nat)
    (h : (alookup locks (lockKeyOf k)).isSome = true) :
    acquire_lock_local locks k lv true W =
      ⟨none, locks, max 1 W, 0⟩ := by
  have hl := localWaitLoop_held locks (lockKeyOf k) W h 0
  simp [acquire_lock_local, h, hl]

/-- A fallback acquire that finds the key absent inserts its token at once:
no sleep, one auto-release task scheduled. -/
theorem acquire_lock_local_free (locks : Locks) (k lv : String) (b : Bool)
    (W : Nat) (h : alookup locks (lockKeyOf k) = none) :
    acquire_lock_local locks k lv b W =
      ⟨some lv, aset locks (lockKeyOf k) lv, 0, 1⟩ := by
  unfold acquire_lock_local
  simp [h]

/-- When the remote key is occupied at every poll up to the deadline, the
blocking remote loop started at poll `n ≤ W` returns `(none, W)`: it gives
up exactly when the elapsed time reaches `waitTimeout`. -/
theorem acquire_lock_redis_loop_timeout (env : Nat → RStore) (lk lv : String)
    (W : Nat) (h : ∀ m, m ≤ W → (alookup (env m) lk).isSome = true) :
    ∀ n, n ≤ W → acquire_lock_redis_loop env lk lv true W n = (none, W) := by
  have main : ∀ d n, n ≤ W → W - n ≤ d →
      acquire_lock_redis_loop env lk lv true W n = (none, W) := by
    intro d
    induction d with
    | zero =>
      intro n hn hd
      have h3 : n = W := by omega
      subst h3
      obtain ⟨v, hv⟩ := Option.isSome_iff_exists.mp (h n hn)
      rw [acquire_lock_redis_loop]
      simp [hv]
    | succ d ih =>
      intro n hn hd
      by_cases h2 : W ≤ n
      · have h3 : n = W := by omega
        subst h3
        obtain ⟨v, hv⟩ := Option.isSome_iff_exists.mp (h n hn)
        rw [acquire_lock_redis_loop]
        simp [hv]
      · obtain ⟨v, hv⟩ := Option.isSome_iff_exists.mp (h n hn)
        rw [acquire_lock_redis_loop]
        simp [hv, h2, ih (n + 1) (by omega) (by omega)]
  intro n hn
  exact main (W - n) n hn le_rfl

/-- When the remote key is occupied at polls `< n₀` and free at poll
`n₀ ≤ W`, the blocking remote loop started at `n ≤ n₀` succeeds exactly at
poll `n₀`, i.e. as soon as the lock becomes acquirable. -/
theorem acquire_lock_redis_loop_success (env : Nat → RStore) (lk lv : String)
    (W n₀ : Nat) (hn : n₀ ≤ W) (h0 : alookup (env n₀) lk = none)
    (hb : ∀ m, m < n₀ → (alookup (env m) lk).isSome = true) :
    ∀ n, n ≤ n₀ →
      acquire_lock_redis_loop env lk lv true W n = (some lv, n₀) := by
  have main : ∀ d n, n ≤ n₀ → n₀ - n ≤ d →
      acquire_lock_redis_loop env lk lv true W n = (some lv, n₀) := by
    intro d
    induction d with
    | zero =>
      intro n hn' hd
      have h3 : n = n₀ := by omega
      subst h3
      rw [acquire_lock_redis_loop]
      simp [h0]
    | succ d ih =>
      intro n hn' hd
      by_cases h3 : n = n₀
      · subst h3
        rw [acquire_lock_redis_loop]
        simp [h0]
      · obtain ⟨v, hv⟩ := Option.isSome_iff_exists.mp (hb n (by omega))
        rw [acquire_lock_redis_loop]
        have h2 : ¬ W ≤ n := by omega
        simp [hv, h2, ih (n + 1) (by omega) (by omega)]
  intro n hn'
  exact main (n₀ - n) n hn' le_rfl

/-! ## Behavior of the counters -/

theorem counterOkLocal_iff (c : Cache) (key : String) :
    counterOkLocal c key = true ↔
      (alookup c key = none ∨
        ∃ n : Int, alookup c key = some (Val.int n) ∧ 0 ≤ n) := by
  unfold counterOkLocal
  cases h : alookup c key with
  | none => simp
  | some v => cases v with
    | str s => simp
    | int n => simp

theorem counterOkRedis_iff (s : CStore) (key : String) :
    counterOkRedis s key = true ↔
      (alookup s key = none ∨
        ∃ n : Int, alookup s key = some n ∧ 0 ≤ n) := by
  unfold counterOkRedis
  cases h : alookup s key with
  | none => simp
  | some n => simp

/-- A get / increment / decrement sequence on the fallback counter never
hits the `TypeError` case and preserves the ≥ 0 invariant. -/
theorem runCounterOpsLocal_ok (tid : Int) (lt : String) :
    ∀ (ops : List CounterOp) (c : Cache),
      counterOkLocal c (concKey tid lt) = true →
      ∃ c', runCounterOpsLocal tid lt ops c = some c' ∧
        counterOkLocal c' (concKey tid lt) = true := by
  intro ops
  induction ops with
  | nil =>
    intro c hc
    exact ⟨c, rfl, hc⟩
  | cons op ops ih =>
    intro c hc
    cases op with
    | get => exact ih c hc
    | inc =>
      rcases (counterOkLocal_iff c (concKey tid lt)).mp hc with h | ⟨n, h, hn⟩
      · have hstep : increment_concurrency_local c tid lt =
            some (1, aset c (concKey tid lt) (Val.int 1)) := by
          simp [increment_concurrency_local, h]
        have hok : counterOkLocal (aset c (concKey tid lt) (Val.int 1))
            (concKey tid lt) = true := by
          rw [counterOkLocal_iff]
          exact Or.inr ⟨1, by rw [alookup_aset_self], by omega⟩
        obtain ⟨c', hrun, hc'⟩ := ih _ hok
        exact ⟨c', by simp [runCounterOpsLocal, hstep, hrun], hc'⟩
      · have hstep : increment_concurrency_local c tid lt =
            some (n + 1, aset c (concKey tid lt) (Val.int (n + 1))) := by
          simp [increment_concurrency_local, h]
        have hok : counterOkLocal (aset c (concKey tid lt) (Val.int (n + 1)))
            (concKey tid lt) = true := by
          rw [counterOkLocal_iff]
          exact Or.inr ⟨n + 1, by rw [alookup_aset_self], by omega⟩
        obtain ⟨c', hrun, hc'⟩ := ih _ hok
        exact ⟨c', by simp [runCounterOpsLocal, hstep, hrun], hc'⟩
    | dec =>
      rcases (counterOkLocal_iff c (concKey tid lt)).mp hc with h | ⟨n, h, hn⟩
      · have hstep : decrement_concurrency_local c tid lt =
            some (0, aset c (concKey tid lt) (Val.int 0)) := by
          simp [decrement_concurrency_local, h]
        have hok : counterOkLocal (aset c (concKey tid lt) (Val.int 0))
            (concKey tid lt) = true := by
          rw [counterOkLocal_iff]
          exact Or.inr ⟨0, by rw [alookup_aset_self], by omega⟩
        obtain ⟨c', hrun, hc'⟩ := ih _ hok
        exact ⟨c', by simp [runCounterOpsLocal, hstep, hrun], hc'⟩
      · have hstep : decrement_concurrency_local c tid lt =
            some (max 0 (n - 1),
              aset c (concKey tid lt) (Val.int (max 0 (n - 1)))) := by
          simp [decrement_concurrency_local, h]
        have hok : counterOkLocal
            (aset c (concKey tid lt) (Val.int (max 0 (n - 1))))
            (concKey tid lt) = true := by
          rw [counterOkLocal_iff]
          exact Or.inr ⟨max 0 (n - 1), by rw [alookup_aset_self], by omega⟩
        obtain ⟨c', hrun, hc'⟩ := ih _ hok
        exact ⟨c', by simp [runCounterOpsLocal, hstep, hrun], hc'⟩

/-- A get / increment / decrement sequence on the remote counter preserves
the ≥ 0 invariant at operation boundaries. -/
theorem runCounterOpsRedis_ok (tid : Int) (lt : String) :
    ∀ (ops : List CounterOp) (s : CStore),
      counterOkRedis s (concKey tid lt) = true →
      counterOkRedis (runCounterOpsRedis tid lt ops s) (concKey tid lt) = true := by
  intro ops
  induction ops with
  | nil => intro s hs; exact hs
  | cons op ops ih =>
    intro s hs
    cases op with
    | get => exact ih s hs
    | inc =>
      have hold : 0 ≤ (alookup s (concKey tid lt)).getD 0 := by
        rcases (counterOkRedis_iff s (concKey tid lt)).mp hs with h | ⟨n, h, hn⟩
        · simp [h]
        · simp [h]
          omega
      have hok : counterOkRedis
          (increment_concurrency_redis s tid lt).2 (concKey tid lt) = true := by
        rw [counterOkRedis_iff]
        refine Or.inr ⟨(alookup s (concKey tid lt)).getD 0 + 1, ?_, by omega⟩
        simp [increment_concurrency_redis, redis_incr, alookup_aset_self]
      exact ih _ hok
    | dec =>
      have hok : counterOkRedis
          (decrement_concurrency_redis s tid lt).2 (concKey tid lt) = true := by
        rw [counterOkRedis_iff]
        unfold decrement_concurrency_redis redis_decr
        by_cases hneg : (alookup s (concKey tid lt)).getD 0 - 1 < 0
        · simp [hneg, alookup_aset_self]
        · simp [hneg, alookup_aset_self]
          omega
      exact ih _ hok

/-! ## The claims -/

/-- Claim C1: `release(k, t)` returns true and removes the lock record
exactly when the stored token for `k` equals `t`; otherwise (differing
token or no record) it returns false and leaves the store unchanged, and
repeating a successful release has no further effect — in the fallback
backend and under the remote compare-and-delete script alike. -/
theorem C1_release_ownership_gated (locks : Locks) (s : RStore)
    (k t : String) :
    ((alookup locks (lockKeyOf k) = some t →
        release_lock_local locks k t = (true, aerase locks (lockKeyOf k)) ∧
        alookup (release_lock_local locks k t).2 (lockKeyOf k) = none) ∧
      (alookup locks (lockKeyOf k) ≠ some t →
        release_lock_local locks k t = (false, locks)) ∧
      (∀ locks', release_lock_local locks k t = (true, locks') →
        release_lock_local locks' k t = (false, locks'))) ∧
    ((alookup s (lockKeyOf k) = some t →
        release_lock_redis s k t = (true, aerase s (lockKeyOf k)) ∧
        alookup (release_lock_redis s k t).2 (lockKeyOf k) = none) ∧
      (alookup s (lockKeyOf k) ≠ some t →
        release_lock_redis s k t = (false, s)) ∧
      (∀ s', release_lock_redis s k t = (true, s') →
        release_lock_redis s' k t = (false, s'))) := by
  constructor
  · refine ⟨?_, ?_, ?_⟩
    · intro h
      simp [release_lock_local, h, alookup_aerase_self]
    · intro h
      simp [release_lock_local, h]
    · intro locks' h
      by_cases hc : alookup locks (lockKeyOf k) = some t
      · simp [release_lock_local, hc] at h
        subst h
        simp [release_lock_local, alookup_aerase_self]
      · simp [release_lock_local, hc] at h
  · refine ⟨?_, ?_, ?_⟩
    · intro h
      simp [release_lock_redis, lua_release, h, alookup_aerase_self]
    · intro h
      simp [release_lock_redis, lua_release, h]
    · intro s' h
      by_cases hc : alookup s (lockKeyOf k) = some t
      · simp [release_lock_redis, lua_release, hc] at h
        subst h
        simp [release_lock_redis, lua_release, alookup_aerase_self]
      · simp [release_lock_redis, lua_release, hc] at h

/-- Witness for C1 at a concrete store: the sole holder's token releases
the lock in both backends. -/
theorem C1_witness :
    alookup [("lock:a", "tok")] (lockKeyOf "a") = some "tok" ∧
    release_lock_local [("lock:a", "tok")] "a" "tok" =
      (true, aerase [("lock:a", "tok")] (lockKeyOf "a")) ∧
    release_lock_redis [("lock:a", "tok")] "a" "tok" =
      (true, aerase [("lock:a", "tok")] (lockKeyOf "a")) :=
  ⟨by decide,
    ((C1_release_ownership_gated [("lock:a", "tok")] [("lock:a", "tok")]
      "a" "tok").1.1 (by decide)).1,
    ((C1_release_ownership_gated [("lock:a", "tok")] [("lock:a", "tok")]
      "a" "tok").2.1 (by decide)).1⟩

/-- Claim C2 counterexample: in the fallback backend a blocking acquire
against a held lock returns none only after the full wait, even though the
holder's release — concretely, `release("job:42", "t1")`, which succeeds on
this store — would have made the lock acquirable long before the 3 s
deadline.  The wait loop (`redis_manager.py:100-109`) runs holding
`_local_lock`, the guard every mutation of `_local_locks` must take
(release `:153`, auto-release `:119`), so no release or expiry can be
applied during the wait and the loop can never observe the lock becoming
acquirable, contradicting the claim for the fallback backend. -/
theorem C2_counterexample :
    (acquire_lock_local [("lock:job:42", "t1")] "job:42" "t2" true 30).res
      = none ∧
    (acquire_lock_local [("lock:job:42", "t1")] "job:42" "t2" true 30).sleeps
      = 30 ∧
    release_lock_local [("lock:job:42", "t1")] "job:42" "t1" = (true, []) := by
  have h := acquire_lock_local_held [("lock:job:42", "t1")] "job:42" "t2" 30
    (by decide)
  refine ⟨by rw [h], by rw [h]; decide, by decide⟩

/-- Claim C2 (amended): with the remote backend, a blocking acquire polls
once per 100 ms tick and returns the fresh owner token at the first poll
`n₀ ≤ waitTimeout` at which the lock key is absent, and returns none at
elapsed time `waitTimeout` if the key is occupied at every poll up to the
deadline; the wait deadline defaults to `ttl` when unspecified.  With the
fallback backend, a blocking acquire that initially finds the lock held
always returns none after `max 1 waitTimeout` polling sleeps and leaves the
map unchanged: its wait loop holds the store guard, so no release or
expiry can take effect during the wait. -/
theorem C2_blocking_acquire (env : Nat → RStore) (locks : Locks)
    (k lv : String) (W n₀ ttl : Nat) :
    pyOrNat none ttl = ttl ∧
    ((∀ m, m ≤ W → (alookup (env m) (lockKeyOf k)).isSome = true) →
      acquire_lock_redis_loop env (lockKeyOf k) lv true W 0 = (none, W)) ∧
    (n₀ ≤ W → alookup (env n₀) (lockKeyOf k) = none →
      (∀ m, m < n₀ → (alookup (env m) (lockKeyOf k)).isSome = true) →
      acquire_lock_redis_loop env (lockKeyOf k) lv true W 0 = (some lv, n₀)) ∧
    ((alookup locks (lockKeyOf k)).isSome = true →
      acquire_lock_local locks k lv true W = ⟨none, locks, max 1 W, 0⟩) := by
  refine ⟨rfl, ?_, ?_, ?_⟩
  · intro h
    exact acquire_lock_redis_loop_timeout env (lockKeyOf k) lv W h 0
      (Nat.zero_le W)
  · intro h1 h2 h3
    exact acquire_lock_redis_loop_success env (lockKeyOf k) lv W n₀ h1 h2 h3 0
      (Nat.zero_le n₀)
  · intro h
    exact acquire_lock_local_held locks k lv W h

/-- Witness for C2 (amended) at a concrete remote environment in which the
lock frees at poll 2 of a 5-tick deadline: the loop succeeds at poll 2. -/
theorem C2_witness :
    ((2 : Nat) ≤ 5 ∧
      alookup ((fun n => if n < 2 then [("lock:k", "t1")] else []) 2)
        (lockKeyOf "k") = none) ∧
    acquire_lock_redis_loop (fun n => if n < 2 then [("lock:k", "t1")] else [])
      (lockKeyOf "k") "t2" true 5 0 = (some "t2", 2) :=
  ⟨⟨by decide, by decide⟩,
    (C2_blocking_acquire (fun n => if n < 2 then [("lock:k", "t1")] else [])
      [] "k" "t2" 5 2 0).2.2.1 (by decide) (by decide)
      (fun m hm => by interval_cases m <;> decide)⟩

/-- Claim C3: while `k` is held with token `t1`, a non-blocking acquire by
another caller returns none and changes nothing; after `release(k, t1)`
succeeds, a subsequent acquire returns the fresh token `t2` and records it
as the sole holder — in both backends. -/
theorem C3_mutual_exclusion (locks : Locks) (s : RStore) (k t1 t2 : String)
    (b : Bool) (W : Nat) :
    (alookup locks (lockKeyOf k) = some t1 →
      acquire_lock_local locks k t2 false W = ⟨none, locks, 0, 0⟩) ∧
    (alookup locks (lockKeyOf k) = some t1 →
      release_lock_local locks k t1 = (true, aerase locks (lockKeyOf k)) ∧
      acquire_lock_local (aerase locks (lockKeyOf k)) k t2 b W =
        ⟨some t2, aset (aerase locks (lockKeyOf k)) (lockKeyOf k) t2, 0, 1⟩ ∧
      alookup (aset (aerase locks (lockKeyOf k)) (lockKeyOf k) t2)
        (lockKeyOf k) = some t2) ∧
    (alookup s (lockKeyOf k) = some t1 →
      acquire_lock_redis_nb s k t2 = (none, s)) ∧
    (alookup s (lockKeyOf k) = some t1 →
      release_lock_redis s k t1 = (true, aerase s (lockKeyOf k)) ∧
      acquire_lock_redis_nb (aerase s (lockKeyOf k)) k t2 =
        (some t2, aset (aerase s (lockKeyOf k)) (lockKeyOf k) t2) ∧
      alookup (aset (aerase s (lockKeyOf k)) (lockKeyOf k) t2)
        (lockKeyOf k) = some t2) := by
  refine ⟨?_, ?_, ?_, ?_⟩
  · intro h
    simp [acquire_lock_local, h]
  · intro h
    refine ⟨by simp [release_lock_local, h], ?_, alookup_aset_self _ _ _⟩
    exact acquire_lock_local_free _ k t2 b W (alookup_aerase_self _ _)
  · intro h
    simp [acquire_lock_redis_nb, redis_set_nx, h]
  · intro h
    refine ⟨by simp [release_lock_redis, lua_release, h], ?_,
      alookup_aset_self _ _ _⟩
    simp [acquire_lock_redis_nb, redis_set_nx, alookup_aerase_self]

/-- Witness for C3: the spec's scenario on `"job:42"` with holder `t1` and
second caller `t2`, in both backends. -/
theorem C3_witness :
    alookup [("lock:job:42", "t1")] (lockKeyOf "job:42") = some "t1" ∧
    acquire_lock_local [("lock:job:42", "t1")] "job:42" "t2" false 20 =
      ⟨none, [("lock:job:42", "t1")], 0, 0⟩ ∧
    release_lock_redis [("lock:job:42", "t1")] "job:42" "t1" =
      (true, aerase [("lock:job:42", "t1")] (lockKeyOf "job:42")) :=
  ⟨by decide,
    (C3_mutual_exclusion [("lock:job:42", "t1")] [("lock:job:42", "t1")]
      "job:42" "t1" "t2" false 20).1 (by decide),
    ((C3_mutual_exclusion [("lock:job:42", "t1")] [("lock:job:42", "t1")]
      "job:42" "t1" "t2" false 20).2.2.2 (by decide)).1⟩

/-- Claim C4: a blocking acquire against a continuously held lock
terminates and returns none, at elapsed poll index `waitTimeout` on the
remote backend and after at most `waitTimeout + 1` polling sleeps on the
fallback backend — the wait loop never retries unboundedly. -/
theorem C4_bounded_blocking (env : Nat → RStore) (locks : Locks)
    (k lv : String) (W : Nat)
    (hr : ∀ m, (alookup (env m) (lockKeyOf k)).isSome = true)
    (hl : (alookup locks (lockKeyOf k)).isSome = true) :
    acquire_lock_redis_loop env (lockKeyOf k) lv true W 0 = (none, W) ∧
    (acquire_lock_redis_loop env (lockKeyOf k) lv true W 0).2 ≤ W + 1 ∧
    (acquire_lock_local locks k lv true W).res = none ∧
    (acquire_lock_local locks k lv true W).sleeps ≤ W + 1 := by
  have h1 := acquire_lock_redis_loop_timeout env (lockKeyOf k) lv W
    (fun m _ => hr m) 0 (Nat.zero_le W)
  have h2 := acquire_lock_local_held locks k lv W hl
  refine ⟨h1, by rw [h1]; omega, by rw [h2], by rw [h2]; simp⟩

/-- Witness for C4: a lock held at every poll, deadline 3 ticks, in both
backends. -/
theorem C4_witness :
    ((∀ m : Nat, (alookup ((fun _ => [("lock:k", "t1")]) m)
        (lockKeyOf "k")).isSome = true) ∧
      (alookup [("lock:k", "t1")] (lockKeyOf "k")).isSome = true) ∧
    acquire_lock_redis_loop (fun _ => [("lock:k", "t1")]) (lockKeyOf "k")
      "t2" true 3 0 = (none, 3) ∧
    (acquire_lock_local [("lock:k", "t1")] "k" "t2" true 3).res = none :=
  ⟨⟨fun m => rfl, by decide⟩,
    (C4_bounded_blocking (fun _ => [("lock:k", "t1")]) [("lock:k", "t1")]
      "k" "t2" 3 (fun m => rfl) (by decide)).1,
    (C4_bounded_blocking (fun _ => [("lock:k", "t1")]) [("lock:k", "t1")]
      "k" "t2" 3 (fun m => rfl) (by decide)).2.2.1⟩

/-- Claim C5: counters never go below zero in either backend: get on an
absent counter is 0, increment stores and returns the value plus one,
decrement clamps at zero (correcting the stored value and returning the
clamped result), repeated decrement on an absent or zero counter yields 0,
and any get/increment/decrement sequence preserves a non-negative stored
value. -/
theorem C5_counter_floor (c : Cache) (s : CStore) (tid : Int) (lt : String)
    (ops : List CounterOp) :
    (alookup c (concKey tid lt) = none →
      get_concurrency_local c tid lt = Val.int 0) ∧
    (alookup s (concKey tid lt) = none →
      get_concurrency_redis s tid lt = 0) ∧
    (∀ n : Int, alookup c (concKey tid lt) = some (Val.int n) →
      increment_concurrency_local c tid lt =
        some (n + 1, aset c (concKey tid lt) (Val.int (n + 1)))) ∧
    ((increment_concurrency_redis s tid lt).1 =
      (alookup s (concKey tid lt)).getD 0 + 1) ∧
    (∀ n : Int, alookup c (concKey tid lt) = some (Val.int n) →
      decrement_concurrency_local c tid lt =
        some (max 0 (n - 1),
          aset c (concKey tid lt) (Val.int (max 0 (n - 1)))) ∧
      0 ≤ max 0 (n - 1)) ∧
    ((decrement_concurrency_redis s tid lt).1 =
        max 0 ((alookup s (concKey tid lt)).getD 0 - 1) ∧
      alookup (decrement_concurrency_redis s tid lt).2 (concKey tid lt) =
        some (max 0 ((alookup s (concKey tid lt)).getD 0 - 1))) ∧
    ((alookup c (concKey tid lt) = none ∨
        alookup c (concKey tid lt) = some (Val.int 0)) →
      decrement_concurrency_local c tid lt =
        some (0, aset c (concKey tid lt) (Val.int 0))) ∧
    ((alookup s (concKey tid lt) = none ∨
        alookup s (concKey tid lt) = some 0) →
      (decrement_concurrency_redis s tid lt).1 = 0 ∧
      alookup (decrement_concurrency_redis s tid lt).2 (concKey tid lt) =
        some 0) ∧
    (counterOkLocal c (concKey tid lt) = true →
      ∃ c', runCounterOpsLocal tid lt ops c = some c' ∧
        counterOkLocal c' (concKey tid lt) = true) ∧
    (counterOkRedis s (concKey tid lt) = true →
      counterOkRedis (runCounterOpsRedis tid lt ops s)
        (concKey tid lt) = true) := by
  refine ⟨?_, ?_, ?_, ?_, ?_, ?_, ?_, ?_, ?_, ?_⟩
  · intro h
    simp [get_concurrency_local, h]
  · intro h
    simp [get_concurrency_redis, h]
  · intro n h
    simp [increment_concurrency_local, h]
  · simp [increment_concurrency_redis, redis_incr]
  · intro n h
    exact ⟨by simp [decrement_concurrency_local, h], le_max_left 0 _⟩
  · unfold decrement_concurrency_redis redis_decr
    by_cases hneg : (alookup s (concKey tid lt)).getD 0 - 1 < 0
    · simp only [hneg, if_true, alookup_aset_self]
      constructor
      · omega
      · congr 1
        omega
    · simp only [hneg, if_false, alookup_aset_self]
      constructor
      · omega
      · congr 1
        omega
  · intro h
    rcases h with h | h <;> simp [decrement_concurrency_local, h]
  · intro h
    unfold decrement_concurrency_redis redis_decr
    rcases h with h | h
    · norm_num [h, alookup_aset_self]
    · norm_num [h, alookup_aset_self]
  · exact runCounterOpsLocal_ok tid lt ops c
  · exact runCounterOpsRedis_ok tid lt ops s

/-- Witness for C5: the empty store, counter `concurrency:7:image`, and the
spec's scenario sequence (three increments, then five decrements) in the
fallback backend plus two decrements from absent in the remote backend. -/
theorem C5_witness :
    (alookup ([] : Cache) (concKey 7 "image") = none ∧
      counterOkLocal [] (concKey 7 "image") = true ∧
      counterOkRedis [] (concKey 7 "image") = true) ∧
    get_concurrency_local [] 7 "image" = Val.int 0 ∧
    (∃ c', runCounterOpsLocal 7 "image"
        [CounterOp.inc, CounterOp.inc, CounterOp.inc, CounterOp.dec,
          CounterOp.dec, CounterOp.dec, CounterOp.dec, CounterOp.dec] [] =
        some c' ∧ counterOkLocal c' (concKey 7 "image") = true) ∧
    counterOkRedis (runCounterOpsRedis 7 "image"
      [CounterOp.dec, CounterOp.dec] []) (concKey 7 "image") = true :=
  ⟨⟨by decide, by decide, by decide⟩,
    (C5_counter_floor [] [] 7 "image" []).1 (by decide),
    (C5_counter_floor [] [] 7 "image"
      [CounterOp.inc, CounterOp.inc, CounterOp.inc, CounterOp.dec,
        CounterOp.dec, CounterOp.dec, CounterOp.dec,
        CounterOp.dec]).2.2.2.2.2.2.2.2.1 (by decide),
    (C5_counter_floor [] [] 7 "image"
      [CounterOp.dec, CounterOp.dec]).2.2.2.2.2.2.2.2.2 (by decide)⟩

/-- Claim C6 counterexample: `release_cf_lock` deletes the CF lock record
even though the caller presents no token at all and the record is held by
owner token `owner-A`: on both backends the record held by another owner
is removed, refuting the ownership gate claimed for this wrapper. -/
theorem C6_counterexample :
    release_cf_lock_local [("lock:cf:refresh", "owner-A")] = [] ∧
    release_cf_lock_redis [("lock:cf:refresh", "owner-A")] = [] ∧
    alookup (release_cf_lock_local [("lock:cf:refresh", "owner-A")])
      "lock:cf:refresh" = none := by
  decide

/-- Claim C6 (amended): `release_cf_lock` is a thin wrapper over an
unconditional delete of the fixed key `lock:cf:refresh`, not over the
ownership-checked release primitive: it takes no token, removes the CF
lock record whatever token is stored — in both backends — and touches no
other key. -/
theorem C6_release_cf_unconditional (locks : Locks) (s : RStore)
    (k' : String) :
    alookup (release_cf_lock_local locks) "lock:cf:refresh" = none ∧
    alookup (release_cf_lock_redis s) "lock:cf:refresh" = none ∧
    (k' ≠ "lock:cf:refresh" →
      alookup (release_cf_lock_local locks) k' = alookup locks k' ∧
      alookup (release_cf_lock_redis s) k' = alookup s k') := by
  refine ⟨?_, ?_, ?_⟩
  · unfold release_cf_lock_local
    cases hq : alookup locks "lock:cf:refresh" with
    | none => simp [hq]
    | some v => simp [hq, alookup_aerase_self]
  · exact alookup_aerase_self s "lock:cf:refresh"
  · intro h
    constructor
    · unfold release_cf_lock_local
      by_cases hq : (alookup locks "lock:cf:refresh").isSome = true
      · simp only [hq, if_true]
        exact alookup_aerase_ne locks "lock:cf:refresh" k' (Ne.symm h)
      · simp [hq]
    · exact alookup_aerase_ne s "lock:cf:refresh" k' (Ne.symm h)

/-- Witness for C6 (amended): a store holding the CF lock for `owner-A`
plus one unrelated lock that survives the unconditional delete. -/
theorem C6_witness :
    ("lock:other" : String) ≠ "lock:cf:refresh" ∧
    alookup (release_cf_lock_local
      [("lock:cf:refresh", "owner-A"), ("lock:other", "p")])
      "lock:cf:refresh" = none ∧
    alookup (release_cf_lock_local
      [("lock:cf:refresh", "owner-A"), ("lock:other", "p")])
      "lock:other" =
      alookup [("lock:cf:refresh", "owner-A"), ("lock:other", "p")]
        "lock:other" :=
  ⟨by decide,
    (C6_release_cf_unconditional
      [("lock:cf:refresh", "owner-A"), ("lock:other", "p")] [] "lock:other").1,
    ((C6_release_cf_unconditional
      [("lock:cf:refresh", "owner-A"), ("lock:other", "p")] [] "lock:other").2.2
      (by decide)).1⟩

/-- Claim C7: in fallback mode every successful acquire schedules exactly
one deferred auto-release task (a failed acquire schedules none); when the
task fires it removes the lock record for its key if present — with no
token check, so regardless of an earlier release — and is a no-op when the
record is absent; afterwards the key is acquirable again. -/
theorem C7_fallback_ttl_expiry (locks : Locks) (k t : String) (b : Bool)
    (W : Nat) (fullKey : String) :
    ((acquire_lock_local locks k t b W).res.isSome = true →
      (acquire_lock_local locks k t b W).scheduled = 1) ∧
    ((acquire_lock_local locks k t b W).res = none →
      (acquire_lock_local locks k t b W).scheduled = 0) ∧
    alookup (auto_release_local_lock locks fullKey) fullKey = none ∧
    (alookup locks fullKey = none →
      auto_release_local_lock locks fullKey = locks) ∧
    (acquire_lock_local (auto_release_local_lock locks (lockKeyOf k))
      k t b W).res = some t := by
  have hauto : ∀ fk : String,
      alookup (auto_release_local_lock locks fk) fk = none := by
    intro fk
    unfold auto_release_local_lock
    cases hq : alookup locks fk with
    | none => simp [hq]
    | some v => simp [hq, alookup_aerase_self]
  refine ⟨?_, ?_, hauto fullKey, ?_, ?_⟩
  · cases hq : alookup locks (lockKeyOf k) with
    | none =>
      rw [acquire_lock_local_free locks k t b W hq]
      intro _
      rfl
    | some v =>
      cases b with
      | false =>
        intro h
        simp [acquire_lock_local, hq] at h
      | true =>
        intro h
        rw [acquire_lock_local_held locks k t W (by simp [hq])] at h
        simp at h
  · cases hq : alookup locks (lockKeyOf k) with
    | none =>
      rw [acquire_lock_local_free locks k t b W hq]
      intro h
      simp at h
    | some v =>
      cases b with
      | false =>
        intro _
        simp [acquire_lock_local, hq]
      | true =>
        intro _
        rw [acquire_lock_local_held locks k t W (by simp [hq])]
  · intro h
    simp [auto_release_local_lock, h]
  · rw [acquire_lock_local_free _ k t b W (hauto (lockKeyOf k))]

/-- Witness for C7: an expired lock on `"x"` held by `old` is swept by the
auto-release action and then re-acquired non-blocking with a fresh token. -/
theorem C7_witness :
    alookup ([] : Locks) "lock:y" = none ∧
    auto_release_local_lock [] "lock:y" = [] ∧
    (acquire_lock_local
      (auto_release_local_lock [("lock:x", "old")] (lockKeyOf "x"))
      "x" "tnew" false 5).res = some "tnew" :=
  ⟨by decide,
    (C7_fallback_ttl_expiry [] "x" "tnew" false 5 "lock:y").2.2.2.1 (by decide),
    (C7_fallback_ttl_expiry [("lock:x", "old")] "x" "tnew" false 5
      "lock:y").2.2.2.2⟩

/-- Claim C8: `initialize` returns true exactly when the remote connection
is established, in which case `is_connected` is true; on any failure,
including the feature being disabled by configuration, it leaves the
client unset (fallback backend), returns false, and — being a total
function of the connection outcome, every exception of the connect/ping
attempt being caught — propagates nothing; afterwards `is_connected` holds
iff the backend is remote. -/
theorem C8_initialize_contract (e : Bool) (conn : Except String String) :
    (initialize_manager e conn).flagged = true ∧
    ((initialize_manager e conn).ret = true ↔
      is_connected (initialize_manager e conn) = true) ∧
    ((initialize_manager e conn).ret = true ↔
      e = true ∧ ∃ h, conn = Except.ok h) ∧
    ((initialize_manager e conn).ret = false ↔
      (initialize_manager e conn).client = none) := by
  cases e <;> cases conn <;> simp [initialize_manager, is_connected]

/-- Claim C9: a cache round trip behaves as claimed in both backends:
`set(k, v)` then `get(k)` yields `v`, also across an intervening write to a
different key; after `delete(k)` or after the expiry action fires, `get(k)`
is absent. -/
theorem C9_cache_round_trip (c : Cache) (s : RStore) (k k' v v' : String)
    (ex ex' : Option Nat) :
    get_local (set_local c k v ex).2.1 k = some (Val.str v) ∧
    (k' ≠ k →
      get_local (set_local (set_local c k v ex).2.1 k' v' ex').2.1 k =
        some (Val.str v)) ∧
    get_local (delete_local c k).2 k = none ∧
    get_local (auto_expire_local_cache c k) k = none ∧
    redis_get (redis_set s k v).2 k = some v ∧
    (k' ≠ k →
      redis_get (redis_set (redis_set s k v).2 k' v').2 k = some v) ∧
    redis_get (redis_delete s k).2 k = none ∧
    redis_get (redis_expire s k) k = none := by
  refine ⟨?_, ?_, ?_, ?_, ?_, ?_, ?_, ?_⟩
  · simp [get_local, set_local, alookup_aset_self]
  · intro h
    simp only [get_local, set_local]
    rw [alookup_aset_ne _ k' k (Val.str v') h, alookup_aset_self]
  · unfold get_local delete_local
    cases hq : alookup c k with
    | none => simp [hq]
    | some w => simp [hq, alookup_aerase_self]
  · unfold get_local auto_expire_local_cache
    cases hq : alookup c k with
    | none => simp [hq]
    | some w => simp [hq, alookup_aerase_self]
  · simp [redis_get, redis_set, alookup_aset_self]
  · intro h
    simp [redis_get, redis_set, alookup_aset_ne _ k' k v' h, alookup_aset_self]
  · simp [redis_get, redis_delete, alookup_aerase_self]
  · simp [redis_get, redis_expire, alookup_aerase_self]

/-- Witness for C9: set `a`, write `b` in between, read `a` back, in both
backends. -/
theorem C9_witness :
    ("b" : String) ≠ "a" ∧
    get_local (set_local (set_local [] "a" "1" none).2.1 "b" "2" none).2.1 "a" =
      some (Val.str "1") ∧
    redis_get (redis_set (redis_set [] "a" "1").2 "b" "2").2 "a" = some "1" :=
  ⟨by decide,
    (C9_cache_round_trip [] [] "a" "b" "1" "2" none none).2.1 (by decide),
    (C9_cache_round_trip [] [] "a" "b" "1" "2" none none).2.2.2.2.2.1
      (by decide)⟩

/-- Claim C10: in fallback mode the counters live in the same map as the
cache entries: after an increment of `concurrency:<tid>:<type>` the cache
operation `exists` on that very key is true, and a cache `delete` of that
key resets the counter read to 0. -/
theorem C10_counters_in_cache_map (c : Cache) (tid : Int) (lt : String)
    (n : Int) (c' : Cache)
    (h : increment_concurrency_local c tid lt = some (n, c')) :
    exists_local c' (concKey tid lt) = true ∧
    get_concurrency_local (delete_local c' (concKey tid lt)).2 tid lt =
      Val.int 0 := by
  have hfin : ∀ m : Int,
      exists_local (aset c (concKey tid lt) (Val.int m))
        (concKey tid lt) = true ∧
      get_concurrency_local
        (delete_local (aset c (concKey tid lt) (Val.int m))
          (concKey tid lt)).2 tid lt = Val.int 0 := by
    intro m
    constructor
    · simp [exists_local, alookup_aset_self]
    · simp [get_concurrency_local, delete_local, alookup_aset_self,
        alookup_aerase_self]
  cases hv : alookup c (concKey tid lt) with
  | none =>
    simp [increment_concurrency_local, hv] at h
    rcases h with ⟨hn, hc⟩
    subst hc
    exact hfin 1
  | some w =>
    cases w with
    | str w =>
      simp [increment_concurrency_local, hv] at h
    | int cur =>
      simp [increment_concurrency_local, hv] at h
      rcases h with ⟨hn, hc⟩
      subst hc
      exact hfin (cur + 1)

/-- Witness for C10: incrementing the fresh counter `concurrency:7:image`
in an empty fallback cache. -/
theorem C10_witness :
    increment_concurrency_local [] 7 "image" =
      some (1, [(concKey 7 "image", Val.int 1)]) ∧
    (exists_local [(concKey 7 "image", Val.int 1)] (concKey 7 "image") =
        true ∧
      get_concurrency_local
        (delete_local [(concKey 7 "image", Val.int 1)]
          (concKey 7 "image")).2 7 "image" = Val.int 0) :=
  ⟨by decide,
    C10_counters_in_cache_map [] 7 "image" 1
      [(concKey 7 "image", Val.int 1)] (by decide)⟩
